import Mathlib

/-!
Verification of the SafeInCloud-to-LastPass card converter.

Shallow embedding of the converter in Lean: the data model (cards, typed
fields, labels, attachments), the per-card classification pipeline that
emits LastPass Site records and Secure Note records, label-to-folder
resolution, extra-block assembly, and the attachment filename escaping.
Definitions mirror the Go source in main.go; Go strings are modelled as
Lean strings (attachment filenames additionally as byte lists, since the
escaping is byte-based).
-/

namespace Sic2lp

/-- Embeds safeincloud.Field: a typed name/value entry of a card. -/
structure Field where
  name : String
  fieldType : String
  value : String
deriving DecidableEq

/-- Embeds safeincloud.File: a binary attachment with its original filename. -/
structure SicFile where
  name : String
  value : List Nat
deriving DecidableEq

/-- Embeds safeincloud.Image: a binary image attachment (always dumped as jpg). -/
structure SicImage where
  value : List Nat
deriving DecidableEq

/-- Embeds safeincloud.Card. -/
structure Card where
  id : String
  title : String
  fields : List Field
  notes : String
  star : Bool
  labelIDs : List Nat
  files : List SicFile
  images : List SicImage
  deleted : Bool
  template : Bool
deriving DecidableEq

/-- Embeds safeincloud.Label: an id/name row of the label table. -/
structure Label where
  id : Nat
  name : String
deriving DecidableEq

/-- Embeds safeincloud.Database: the card list plus the label table. -/
structure Database where
  cards : List Card
  labels : List Label
deriving DecidableEq

/-- Embeds the site struct: a LastPass Site record. -/
structure Site where
  url : String
  type : String
  username : String
  password : String
  hostname : String
  extra : String
  name : String
  grouping : String
  fav : String
deriving DecidableEq, Inhabited

/-- Embeds the note struct: a LastPass Secure Note record. -/
structure Note where
  url : String
  username : String
  password : String
  extra : String
  name : String
  grouping : String
  fav : String
deriving DecidableEq, Inhabited

/-- ASCII case folding of one character, as used by strings.EqualFold on
ASCII data (uppercase letters map to lowercase; all else unchanged). -/
def charFold (ch : Char) : Char :=
  if 65 ≤ ch.toNat ∧ ch.toNat ≤ 90 then Char.ofNat (ch.toNat + 32) else ch

/-- Embeds strings.EqualFold restricted to ASCII: equality up to case. -/
def stringEqualFold (a b : String) : Bool :=
  a.data.map charFold == b.data.map charFold

/-- Inner loop of cardLabels: all label-table rows whose id matches, in
table order. -/
def labelsFor (ls : List Label) (i : Nat) : List String :=
  match ls with
  | [] => []
  | l :: rest => if l.id == i then l.name :: labelsFor rest i else labelsFor rest i

/-- Outer loop of cardLabels over the card label-id references. -/
def cardLabelsAux (ls : List Label) : List Nat → List String
  | [] => []
  | i :: rest => labelsFor ls i ++ cardLabelsAux ls rest

/-- Embeds cardLabels: resolves Card.LabelIDs against the label table,
keeping the card reference order; unmatched ids are dropped. -/
def cardLabels (db : Database) (c : Card) : List String :=
  cardLabelsAux db.labels c.labelIDs

/-- Case split of primaryCardLabel on the resolved label list: no labels
gives the default folder; otherwise the first priority entry that
case-insensitively matches any label wins; otherwise the default folder,
a dash separator and the first label. -/
def primaryFromLabels : List String → List String → String → String
  | [], _, df => df
  | l0 :: ls, pf, df =>
    match pf.find? (fun f => (l0 :: ls).any (fun l => stringEqualFold f l)) with
    | some f => f
    | none => df ++ " - " ++ l0

/-- Embeds primaryCardLabel: resolves the card labels and picks the
destination folder. -/
def primaryCardLabel (db : Database) (c : Card) (pf : List String) (df : String) : String :=
  primaryFromLabels (cardLabels db c) pf df

/-- One step of replaceAllAux: leftmost non-overlapping occurrences of pat
are replaced by rep, with fuel bounding the recursion depth (fuel equal to
the input length always suffices, so this computes strings.Replace with
count -1 for a non-empty pattern). -/
def replaceAllAux [DecidableEq α] (pat rep : List α) : Nat → List α → List α
  | _, [] => []
  | 0, s => s
  | fuel + 1, a :: rest =>
    if pat.isPrefixOf (a :: rest) && !pat.isEmpty then
      rep ++ replaceAllAux pat rep fuel (rest.drop (pat.length - 1))
    else
      a :: replaceAllAux pat rep fuel rest

/-- Embeds strings.Replace with count -1 (replace every occurrence). -/
def replaceAll [DecidableEq α] (pat rep s : List α) : List α :=
  replaceAllAux pat rep s.length s

/-- Embeds the title fallback of parse: remove every occurrence of the two
scheme strings from the website value (strings.Replace with count -1,
case-sensitive), first the plain scheme and then the TLS scheme. -/
def stripScheme (s : String) : String :=
  String.mk (replaceAll "https://".data [] (replaceAll "http://".data [] s.data))

/-- The title used for an emitted Site: the card title, or when that is
empty the scheme-stripped website value. -/
def siteTitle (t url : String) : String :=
  if t == "" then stripScheme url else t

/-- Embeds the first forward scan of parse: the value of the first
password-typed field with a non-empty value, or empty when none exists. -/
def firstPassword : List Field → String
  | [] => ""
  | fi :: rest =>
    if fi.fieldType == "password" && fi.value != "" then fi.value
    else firstPassword rest

/-- Embeds the second forward scan of parse: the value of the first
website-typed field with a non-empty value, or empty when none exists. -/
def firstWebsite : List Field → String
  | [] => ""
  | fi :: rest =>
    if fi.fieldType == "website" && fi.value != "" then fi.value
    else firstWebsite rest

/-- Embeds the field loop of importSite that builds the Extra block: each
field whose value equals the extracted url, login or password is skipped,
every other field contributes its name, a colon-space, its value and a
blank line, in field order. -/
def siteExtraFields (url login pass : String) : List Field → String
  | [] => ""
  | f :: rest =>
    (if f.value == url || f.value == login || f.value == pass then ""
     else f.name ++ ": " ++ f.value ++ "\n\n") ++ siteExtraFields url login pass rest

/-- Embeds the field loop of importSecureNote: every field is dumped. -/
def noteFieldDump : List Field → String
  | [] => ""
  | f :: rest => f.name ++ ": " ++ f.value ++ "\n\n" ++ noteFieldDump rest

/-- Embeds the labels tail of the Extra block: when the comma-joined label
list is non-empty, a blank line and a Labels line are appended. -/
def labelsSuffix (db : Database) (c : Card) : String :=
  let ls := String.intercalate ", " (cardLabels db c)
  if ls.length > 0 then "\n\nLabels: " ++ ls else ""

/-- Embeds importSite: builds the Site record appended for one qualifying
login triplet. -/
def importSite (db : Database) (c : Card) (pf : List String) (df title login pass url : String) : Site :=
  { url := url
    type := ""
    username := login
    password := pass
    hostname := ""
    extra := siteExtraFields url login pass c.fields ++ c.notes ++ labelsSuffix db c
    name := title
    grouping := primaryCardLabel db c pf df
    fav := if c.star then "1" else "" }

/-- The apostrophe character, used in one NoteType string. -/
def apos : Char := Char.ofNat 39

/-- Embeds the grouping switch of importSecureNote: exact, case-sensitive
match of the resolved grouping against nine fixed folder names; anything
else yields the empty string (no NoteType line). -/
def noteTypeFor (g : String) : String :=
  if g == "Credit Cards" then "NoteType:Credit Card"
  else if g == "Banking" then "NoteType:Bank Account"
  else if g == "Databases" then "NoteType:Database"
  else if g == "Licenses" then "NoteType:Driver" ++ String.mk [apos] ++ "s License"
  else if g == "Insurance" then "NoteType:Insurance"
  else if g == "Membership" then "NoteType:Membership"
  else if g == "Passport" then "NoteType:Passport"
  else if g == "Servers" then "NoteType:Server"
  else if g == "Software" then "NoteType:Software License"
  else ""

/-- Embeds importSecureNote: builds the single Secure Note record for a
card with no qualifying login triplet. -/
def importSecureNote (db : Database) (c : Card) (pf : List String) (df : String) : Note :=
  let title := if c.title == "" then "SecureNote " ++ c.id else c.title
  let g := primaryCardLabel db c pf df
  let nt := noteTypeFor g
  { url := "http://sn"
    username := ""
    password := ""
    extra := (if nt != "" then nt ++ "\n\n" else "")
              ++ noteFieldDump c.fields ++ c.notes ++ labelsSuffix db c
    name := title
    grouping := g
    fav := if c.star then "1" else "" }

/-- Embeds the field loop of parse: at each login-typed field with a
non-empty value the remaining suffix (current field included) is scanned
for the first non-empty password and website; when both are found and the
title fallback is non-empty a Site is emitted, otherwise this login is
skipped and the scan continues. -/
def parseLoop (db : Database) (c : Card) (pf : List String) (df : String) : List Field → List Site
  | [] => []
  | f :: rest =>
    if f.fieldType == "login" && f.value != "" then
      let pass := firstPassword (f :: rest)
      let url := firstWebsite (f :: rest)
      if pass == "" || url == "" then parseLoop db c pf df rest
      else
        let title := siteTitle c.title url
        if title == "" then parseLoop db c pf df rest
        else importSite db c pf df title f.value pass url :: parseLoop db c pf df rest
    else parseLoop db c pf df rest

/-- Embeds parse: the Sites emitted by the field loop, and when none was
emitted, exactly one Secure Note. -/
def parseCard (db : Database) (c : Card) (pf : List String) (df : String) : List Site × List Note :=
  let sites := parseLoop db c pf df c.fields
  if sites.isEmpty then ([], [importSecureNote db c pf df]) else (sites, [])

/-- A Go string as its byte sequence (the modelled data is ASCII). -/
def strBytes (s : String) : List Nat :=
  s.data.map Char.toNat

/-- True for the bytes net/url never escapes in query-component mode:
ASCII alphanumerics, dash, underscore, dot and tilde. -/
def isUnreservedByte (b : Nat) : Bool :=
  (97 ≤ b && b ≤ 122) || (65 ≤ b && b ≤ 90) || (48 ≤ b && b ≤ 57) ||
    b == 45 || b == 95 || b == 46 || b == 126

/-- Uppercase hexadecimal digit of a value below sixteen, as a byte. -/
def hexDigitByte (n : Nat) : Nat :=
  if n < 10 then 48 + n else 55 + n

/-- Escaping of one byte by url.QueryEscape: unreserved bytes pass
through, the space byte becomes a plus sign, every other byte becomes a
percent sign and two uppercase hex digits. -/
def queryEscapeByte (b : Nat) : List Nat :=
  if isUnreservedByte b then [b]
  else if b == 32 then [43]
  else [37, hexDigitByte (b / 16), hexDigitByte (b % 16)]

/-- Embeds url.QueryEscape, byte for byte. -/
def queryEscape (s : List Nat) : List Nat :=
  match s with
  | [] => []
  | b :: rest => queryEscapeByte b ++ queryEscape rest

/-- Embeds the filename computation of dumpfile: QueryEscape, then every
occurrence of the three bytes percent-two-zero replaced by a space. -/
def dumpfileName (filename : String) : List Nat :=
  replaceAll [37, 50, 48] [32] (queryEscape (strBytes filename))

/-- Embeds the name construction of extractAttachments: file attachments
get title, underscore, index, underscore and the original filename; image
attachments get title, underscore, index and a jpg extension. -/
def extractAttachmentNames (c : Card) (title : String) : List String :=
  (c.files.enum.map fun p => title ++ "_" ++ toString p.1 ++ "_" ++ p.2.name) ++
    (c.images.enum.map fun p => title ++ "_" ++ toString p.1 ++ ".jpg")

/-- The byte filenames actually passed to the file writer for a card:
each constructed attachment name after the dumpfile escaping. -/
def writtenAttachmentNames (c : Card) (title : String) : List (List Nat) :=
  (extractAttachmentNames c title).map dumpfileName

/-- Escaping that follows the words of the spec for attachment filenames:
the percent-escaped form of the name except that every literal space byte
is preserved unescaped. -/
def specFilenameEscape (s : List Nat) : List Nat :=
  match s with
  | [] => []
  | b :: rest => (if b == 32 then [32] else queryEscapeByte b) ++ specFilenameEscape rest

/-- One step of replaceFirstAux: only the leftmost occurrence of pat is
replaced by rep, the remainder is kept unchanged. -/
def replaceFirst [DecidableEq α] (pat rep : List α) : List α → List α
  | [] => []
  | a :: rest =>
    if pat.isPrefixOf (a :: rest) && !pat.isEmpty then
      rep ++ rest.drop (pat.length - 1)
    else
      a :: replaceFirst pat rep rest

/-- Title stripping that follows the words of the spec claim: a
first-match-only replacement of each scheme string by nothing. -/
def firstMatchStrip (s : String) : String :=
  String.mk (replaceFirst "https://".data [] (replaceFirst "http://".data [] s.data))

/-- Whether position i of the field list holds a qualifying login: a
login-typed field with non-empty value whose forward scans (from i
inclusive) find a non-empty password and website and whose title fallback
is non-empty. -/
def qualifyingB (t : String) (fs : List Field) (i : Nat) : Bool :=
  match fs[i]? with
  | some f =>
    f.fieldType == "login" && f.value != "" &&
      firstPassword (fs.drop i) != "" && firstWebsite (fs.drop i) != "" &&
      siteTitle t (firstWebsite (fs.drop i)) != ""
  | none => false

/-- The Site record that a qualifying login at position i produces: the
login value at i paired with the forward-scanned password and website. -/
def siteAt (db : Database) (c : Card) (pf : List String) (df : String)
    (fs : List Field) (i : Nat) : Site :=
  importSite db c pf df (siteTitle c.title (firstWebsite (fs.drop i)))
    (match fs[i]? with | some f => f.value | none => "")
    (firstPassword (fs.drop i)) (firstWebsite (fs.drop i))

/-- Whether a priority entry case-insensitively matches any card label. -/
def labelMatches (p : String) (labels : List String) : Bool :=
  labels.any (fun l => stringEqualFold p l)

/-- The nine folder names recognized by the grouping switch of
importSecureNote. -/
def nineNames : List String :=
  ["Credit Cards", "Banking", "Databases", "Licenses", "Insurance",
   "Membership", "Passport", "Servers", "Software"]

/-- An empty database used by concrete instantiations. -/
def cxdb : Database := { cards := [], labels := [] }

/-- Concrete card with two qualifying logins, for instantiating the
multi-login extraction theorem. -/
def w1c : Card :=
  { id := "1", title := "Shop"
    fields :=
      [⟨"Login", "login", "bob"⟩, ⟨"Password", "password", "pw1"⟩,
       ⟨"Website", "website", "https://a.com"⟩,
       ⟨"Login 2", "login", "alice"⟩, ⟨"Password 2", "password", "pw2"⟩,
       ⟨"Website 2", "website", "https://b.com"⟩]
    notes := "", star := false, labelIDs := [], files := [], images := []
    deleted := false, template := false }

/-- Concrete database with two labels, for the folder-resolution
instantiation. -/
def w2db : Database := { cards := [], labels := [⟨1, "Google"⟩, ⟨2, "Personal"⟩] }

/-- Concrete card labelled Google then Personal. -/
def w2c : Card :=
  { id := "2", title := "T", fields := [], notes := "", star := false
    labelIDs := [1, 2], files := [], images := [], deleted := false, template := false }

/-- Concrete card whose website value contains the scheme string twice,
for refuting first-match-only title stripping. -/
def c4card : Card :=
  { id := "4", title := ""
    fields :=
      [⟨"Login", "login", "bob"⟩, ⟨"Password", "password", "pw"⟩,
       ⟨"Website", "website", "http://http://a"⟩]
    notes := "", star := false, labelIDs := [], files := [], images := []
    deleted := false, template := false }

/-- Concrete empty-title card with one qualifying triplet, for the
title-fallback instantiation. -/
def w4c : Card :=
  { id := "44", title := ""
    fields :=
      [⟨"Login", "login", "bob"⟩, ⟨"Password", "password", "pw"⟩,
       ⟨"Website", "website", "https://example.com"⟩]
    notes := "", star := false, labelIDs := [], files := [], images := []
    deleted := false, template := false }

/-- The single Site emitted for w4c. -/
def w4site : Site := ((parseCard cxdb w4c [] "Imported").1).headI

/-- Concrete card whose title contains a space and which carries one file
attachment, exhibiting the space handling of the filename escaping. -/
def c5card : Card :=
  { id := "5", title := "My Card", fields := [], notes := "", star := false
    labelIDs := [], files := [⟨"a.txt", [1, 2]⟩], images := []
    deleted := false, template := false }

/-- Concrete card with a free-text field whose value duplicates the login
value, for the extra-block exclusion instantiation. -/
def w6c : Card :=
  { id := "6", title := "T"
    fields :=
      [⟨"User", "login", "bob"⟩, ⟨"Pass", "password", "pw"⟩,
       ⟨"Site", "website", "u"⟩, ⟨"Info", "text", "z"⟩, ⟨"Dup", "text", "bob"⟩]
    notes := "", star := false, labelIDs := [], files := [], images := []
    deleted := false, template := false }

/-- Concrete database holding the Credit Cards label. -/
def c7db : Database := { cards := [], labels := [⟨1, "Credit Cards"⟩] }

/-- Concrete card labelled Credit Cards with no qualifying login triplet. -/
def c7card : Card :=
  { id := "7", title := "Visa", fields := [⟨"Number", "text", "1234"⟩]
    notes := "", star := false, labelIDs := [1], files := [], images := []
    deleted := false, template := false }

/-- Concrete card with one qualifying triplet, for the Site-invariant
instantiation. -/
def w8c : Card :=
  { id := "8", title := "T"
    fields :=
      [⟨"Login", "login", "bob"⟩, ⟨"Password", "password", "pw"⟩,
       ⟨"Website", "website", "https://a.com"⟩]
    notes := "", star := false, labelIDs := [], files := [], images := []
    deleted := false, template := false }

/-- The single Site emitted for w8c. -/
def w8site : Site := ((parseCard cxdb w8c [] "Imported").1).headI

/-- Concrete empty-title card with no qualifying triplet, for the note
name fallback instantiation. -/
def w9c : Card :=
  { id := "9", title := "", fields := [⟨"Info", "text", "z"⟩], notes := ""
    star := false, labelIDs := [], files := [], images := []
    deleted := false, template := false }

/-- The single Secure Note emitted for w9c. -/
def w9note : Note := ((parseCard cxdb w9c [] "Imported").2).headI

/-- Concrete card labelled Credit Cards, resolved through a lower-case
priority entry, for the case-sensitivity instantiation of the grouping
switch. -/
def w10c : Card :=
  { id := "10", title := "Visa", fields := [⟨"Number", "text", "1234"⟩]
    notes := "", star := false, labelIDs := [1], files := [], images := []
    deleted := false, template := false }

/-- Every Site produced by the field loop comes from importSite applied to
a non-empty login value, a non-empty forward-scanned password and website,
and a non-empty fallback title. -/
theorem mem_parseLoop {db : Database} {c : Card} {pf : List String} {df : String} :
    ∀ {fs : List Field} {s : Site}, s ∈ parseLoop db c pf df fs →
      ∃ login pass url, login ≠ "" ∧ pass ≠ "" ∧ url ≠ "" ∧
        siteTitle c.title url ≠ "" ∧
        s = importSite db c pf df (siteTitle c.title url) login pass url := by
  intro fs
  induction fs with
  | nil => intro s h; simp [parseLoop] at h
  | cons f rest ih =>
    intro s h
    simp only [parseLoop] at h
    by_cases h1 : (f.fieldType == "login" && f.value != "") = true
    · rw [if_pos h1] at h
      by_cases h2 : (firstPassword (f :: rest) == "" || firstWebsite (f :: rest) == "") = true
      · rw [if_pos h2] at h
        exact ih h
      · rw [if_neg h2] at h
        by_cases h3 : (siteTitle c.title (firstWebsite (f :: rest)) == "") = true
        · rw [if_pos h3] at h
          exact ih h
        · rw [if_neg h3] at h
          rcases List.mem_cons.mp h with hs | hs
          · refine ⟨f.value, firstPassword (f :: rest), firstWebsite (f :: rest), ?_, ?_, ?_, ?_, hs⟩
            · have := (Bool.and_eq_true _ _).mp h1 |>.right
              simpa [bne_iff_ne] using this
            · intro hp
              exact h2 (by simp [hp])
            · intro hu
              exact h2 (by simp [hu])
            · simpa [beq_iff_eq] using h3
          · exact ih hs
    · rw [if_neg h1] at h
      exact ih h

/-- The extra-block field loop of importSite equals the concatenation, in
field order, of one entry per field surviving the value-based exclusion. -/
theorem siteExtraFields_eq_filter (url login pass : String) :
    ∀ fs : List Field, siteExtraFields url login pass fs =
      ((fs.filter fun f => !(f.value == url || f.value == login || f.value == pass)).map
        (fun f => f.name ++ ": " ++ f.value ++ "\n\n")).foldr (· ++ ·) "" := by
  intro fs
  induction fs with
  | nil => simp [siteExtraFields]
  | cons f rest ih =>
    simp only [siteExtraFields, List.filter_cons]
    cases hc : (f.value == url || f.value == login || f.value == pass) with
    | true => simpa [hc] using ih
    | false => simp [hc, ih]

/-- find? returns the element at the first position whose test succeeds. -/
theorem find?_eq_some_of_first {α : Type} (p : α → Bool) :
    ∀ (l : List α) (j : Nat) (hj : j < l.length),
      p (l.get ⟨j, hj⟩) = true →
      (∀ k (hk : k < l.length), k < j → p (l.get ⟨k, hk⟩) = false) →
      l.find? p = some (l.get ⟨j, hj⟩) := by
  intro l
  induction l with
  | nil => intro j hj; simp at hj
  | cons a t ih =>
    intro j hj hpj hbefore
    cases j with
    | zero =>
      simp only [List.get] at hpj
      simp [List.find?, hpj]
    | succ j =>
      have ha : p a = false := by
        have := hbefore 0 (by simp) (Nat.succ_pos j)
        simpa using this
      have hj' : j < t.length := Nat.lt_of_succ_lt_succ hj
      have hpj' : p (t.get ⟨j, hj'⟩) = true := by simpa using hpj
      have hbefore' : ∀ k (hk : k < t.length), k < j → p (t.get ⟨k, hk⟩) = false := by
        intro k hk hkj
        have := hbefore (k + 1) (Nat.succ_lt_succ hk) (Nat.succ_lt_succ hkj)
        simpa using this
      simp only [List.find?, ha]
      simpa using ih j hj' hpj' hbefore'

/-- Shifting the inspected position by one past a cons leaves the
qualifying test unchanged. -/
theorem qualifyingB_succ (t : String) (f : Field) (rest : List Field) (i : Nat) :
    qualifyingB t (f :: rest) (i + 1) = qualifyingB t rest i := by
  simp [qualifyingB, List.getElem?_cons_succ, List.drop_succ_cons]

/-- Shifting the emission position by one past a cons leaves the emitted
Site unchanged. -/
theorem siteAt_succ (db : Database) (c : Card) (pf : List String) (df : String)
    (f : Field) (rest : List Field) (i : Nat) :
    siteAt db c pf df (f :: rest) (i + 1) = siteAt db c pf df rest i := by
  simp [siteAt, List.getElem?_cons_succ, List.drop_succ_cons]

/-- The qualifying test at the head of the field list, spelled out. -/
theorem qualifyingB_zero (t : String) (f : Field) (rest : List Field) :
    qualifyingB t (f :: rest) 0 =
      (f.fieldType == "login" && f.value != "" &&
        firstPassword (f :: rest) != "" && firstWebsite (f :: rest) != "" &&
        siteTitle t (firstWebsite (f :: rest)) != "") := by
  simp [qualifyingB]

/-- The emitted Site at the head of the field list, spelled out. -/
theorem siteAt_zero (db : Database) (c : Card) (pf : List String) (df : String)
    (f : Field) (rest : List Field) :
    siteAt db c pf df (f :: rest) 0 =
      importSite db c pf df (siteTitle c.title (firstWebsite (f :: rest)))
        f.value (firstPassword (f :: rest)) (firstWebsite (f :: rest)) := by
  simp [siteAt]

/-- The field loop of parse emits exactly one Site per qualifying login
position, in position order: it equals the filter of all positions by the
qualifying test, mapped to the corresponding Site. -/
theorem parseLoop_eq_filter (db : Database) (c : Card) (pf : List String) (df : String) :
    ∀ fs : List Field, parseLoop db c pf df fs =
      ((List.range fs.length).filter (qualifyingB c.title fs)).map (siteAt db c pf df fs) := by
  intro fs
  induction fs with
  | nil => simp [parseLoop]
  | cons f rest ih =>
    rw [show (f :: rest).length = rest.length + 1 from rfl, List.range_succ_eq_map,
      List.filter_cons]
    have hq : (qualifyingB c.title (f :: rest)) ∘ Nat.succ = qualifyingB c.title rest :=
      funext fun i => qualifyingB_succ c.title f rest i
    have hs2 : (siteAt db c pf df (f :: rest)) ∘ Nat.succ = siteAt db c pf df rest :=
      funext fun i => siteAt_succ db c pf df f rest i
    simp only [List.filter_map, hq]
    by_cases h1 : (f.fieldType == "login" && f.value != "") = true
    · by_cases h2 : (firstPassword (f :: rest) == "" || firstWebsite (f :: rest) == "") = true
      · have hq0 : qualifyingB c.title (f :: rest) 0 = false := by
          rw [qualifyingB_zero]
          rcases Bool.or_eq_true _ _ |>.mp h2 with hp | hw
          · simp [hp, bne]
          · simp [hw, bne]
        rw [if_neg (by simp [hq0])]
        rw [List.map_map, hs2]
        simp only [parseLoop]
        rw [if_pos h1, if_pos h2]
        exact ih
      · by_cases h3 : (siteTitle c.title (firstWebsite (f :: rest)) == "") = true
        · have hq0 : qualifyingB c.title (f :: rest) 0 = false := by
            rw [qualifyingB_zero]
            simp [h3, bne]
          rw [if_neg (by simp [hq0])]
          rw [List.map_map, hs2]
          simp only [parseLoop]
          rw [if_pos h1, if_neg h2, if_pos h3]
          exact ih
        · have hq0 : qualifyingB c.title (f :: rest) 0 = true := by
            rw [qualifyingB_zero]
            simp only [Bool.or_eq_true, not_or, Bool.not_eq_true] at h2 h3
            simp only [Bool.and_eq_true, beq_iff_eq, bne_iff_ne] at h1
            simp [h1.1, h1.2, h2.1, h2.2, h3, bne]
          rw [if_pos hq0]
          rw [List.map_cons, List.map_map, hs2, siteAt_zero]
          simp only [parseLoop]
          rw [if_pos h1, if_neg h2, if_neg h3]
          exact congrArg _ ih
    · have hq0 : qualifyingB c.title (f :: rest) 0 = false := by
        rw [qualifyingB_zero]
        simp only [Bool.not_eq_true] at h1
        simp [h1]
      rw [if_neg (by simp [hq0])]
      rw [List.map_map, hs2]
      simp only [parseLoop]
      rw [if_neg h1]
      exact ih

/-- The grouping switch yields a NoteType line exactly for the nine
recognized folder names. -/
theorem noteTypeFor_ne_iff (g : String) : noteTypeFor g ≠ "" ↔ g ∈ nineNames := by
  unfold noteTypeFor
  split_ifs with h1 h2 h3 h4 h5 h6 h7 h8 h9 <;> simp_all [nineNames, beq_iff_eq]
  decide

/-- The Sites component of a parsed card is the field loop output, and the
notes component is empty exactly when the field loop emitted something. -/
theorem parseCard_cases (db : Database) (c : Card) (pf : List String) (df : String) :
    (parseLoop db c pf df c.fields = [] ∧
      parseCard db c pf df = ([], [importSecureNote db c pf df])) ∨
    (parseLoop db c pf df c.fields ≠ [] ∧
      parseCard db c pf df = (parseLoop db c pf df c.fields, [])) := by
  by_cases h : (parseLoop db c pf df c.fields).isEmpty
  · left
    have he : parseLoop db c pf df c.fields = [] := List.isEmpty_iff.mp h
    exact ⟨he, by simp [parseCard, h]⟩
  · right
    have he : parseLoop db c pf df c.fields ≠ [] := by
      intro hh
      exact h (by simp [hh])
    exact ⟨he, by simp [parseCard, h]⟩

/-- C1: the Sites emitted for a card are exactly, in field order, one per
login-typed field with non-empty value whose forward scans from its
position (inclusive) find a non-empty password and website and whose
title fallback is non-empty, each Site built from that login value and
its two forward-scanned values; and when at least one position qualifies,
no Secure Note is emitted. -/
theorem parse_sites_exactly_qualifying_logins (db : Database) (c : Card)
    (pf : List String) (df : String) :
    (parseCard db c pf df).1 =
      ((List.range c.fields.length).filter (qualifyingB c.title c.fields)).map
        (siteAt db c pf df c.fields) ∧
    (((List.range c.fields.length).filter (qualifyingB c.title c.fields)) ≠ [] →
      (parseCard db c pf df).2 = []) := by
  have h := parseLoop_eq_filter db c pf df c.fields
  rcases parseCard_cases db c pf df with ⟨he, hp⟩ | ⟨he, hp⟩
  · have hmap :
        ((List.range c.fields.length).filter (qualifyingB c.title c.fields)).map
          (siteAt db c pf df c.fields) = [] := by
      rw [← h]
      exact he
    constructor
    · rw [hp, hmap]
    · intro hne
      exact absurd (List.map_eq_nil_iff.mp hmap) hne
  · constructor
    · rw [hp, ← h]
    · intro _
      rw [hp]

/-- Closed instantiation of the multi-login theorem: a card with two
qualifying logins emits no Secure Note. -/
theorem parse_sites_exactly_qualifying_logins_witness :
    (parseCard cxdb w1c [] "Imported").2 = [] :=
  (parse_sites_exactly_qualifying_logins cxdb w1c [] "Imported").2 (by decide)

/-- C2: folder resolution returns the default folder for a card with no
resolved labels; otherwise the first priority entry (in priority order,
and in its own casing) that case-insensitively matches any card label;
otherwise the default folder, a dash separator and the first resolved
label. -/
theorem primaryCardLabel_three_cases (db : Database) (c : Card)
    (pf : List String) (df : String) :
    (cardLabels db c = [] → primaryCardLabel db c pf df = df) ∧
    (∀ j (hj : j < pf.length),
      labelMatches (pf.get ⟨j, hj⟩) (cardLabels db c) = true →
      (∀ k (hk : k < pf.length), k < j →
        labelMatches (pf.get ⟨k, hk⟩) (cardLabels db c) = false) →
      primaryCardLabel db c pf df = pf.get ⟨j, hj⟩) ∧
    ((∀ p ∈ pf, labelMatches p (cardLabels db c) = false) → cardLabels db c ≠ [] →
      primaryCardLabel db c pf df = df ++ " - " ++ (cardLabels db c).headI) := by
  refine ⟨?_, ?_, ?_⟩
  · intro h
    unfold primaryCardLabel
    rw [h]
    rfl
  · intro j hj hmatch hbefore
    cases hcl : cardLabels db c with
    | nil =>
      rw [hcl] at hmatch
      simp [labelMatches] at hmatch
    | cons l0 ls =>
      rw [hcl] at hmatch hbefore
      have hf := find?_eq_some_of_first (fun f => labelMatches f (l0 :: ls)) pf j hj
        hmatch hbefore
      simp only [labelMatches] at hf
      unfold primaryCardLabel
      rw [hcl]
      simp only [primaryFromLabels]
      rw [hf]
  · intro hall hne
    cases hcl : cardLabels db c with
    | nil => exact absurd hcl hne
    | cons l0 ls =>
      have hf : pf.find? (fun f => (l0 :: ls).any fun l => stringEqualFold f l) = none := by
        apply List.find?_eq_none.mpr
        intro x hx
        have hx2 := hall x hx
        rw [hcl] at hx2
        simp only [labelMatches] at hx2
        simp [hx2]
      unfold primaryCardLabel
      rw [hcl]
      simp only [primaryFromLabels]
      rw [hf]
      rfl

/-- Closed instantiation of folder resolution: the second priority entry
matches a label case-insensitively and is returned in its own casing. -/
theorem primaryCardLabel_three_cases_witness :
    primaryCardLabel w2db w2c ["Work", "GOOGLE"] "Imported" = "GOOGLE" :=
  (primaryCardLabel_three_cases w2db w2c ["Work", "GOOGLE"] "Imported").2.1 1
    (by decide) (by decide)
    (by
      intro k hk hk1
      have hk0 : k = 0 := Nat.lt_one_iff.mp hk1
      subst hk0
      show labelMatches "Work" (cardLabels w2db w2c) = false
      decide)

/-- C3: a parsed card yields either at least one Site and no Secure Note,
or no Site and exactly one Secure Note with blank username and password;
never both and never neither. -/
theorem parse_site_xor_note (db : Database) (c : Card) (pf : List String) (df : String) :
    ((parseCard db c pf df).1 ≠ [] ∧ (parseCard db c pf df).2 = []) ∨
    ((parseCard db c pf df).1 = [] ∧
      (parseCard db c pf df).2 = [importSecureNote db c pf df] ∧
      (importSecureNote db c pf df).username = "" ∧
      (importSecureNote db c pf df).password = "") := by
  rcases parseCard_cases db c pf df with ⟨he, hp⟩ | ⟨he, hp⟩
  · right
    rw [hp]
    exact ⟨rfl, rfl, rfl, rfl⟩
  · left
    rw [hp]
    exact ⟨he, rfl⟩

/-- A Site of the parsed output comes from the field loop. -/
theorem mem_sites_mem_parseLoop {db : Database} {c : Card} {pf : List String}
    {df : String} {s : Site} (hs : s ∈ (parseCard db c pf df).1) :
    s ∈ parseLoop db c pf df c.fields := by
  rcases parseCard_cases db c pf df with ⟨he, hp⟩ | ⟨he, hp⟩
  · rw [hp] at hs
    simp at hs
  · rw [hp] at hs
    exact hs

/-- A Secure Note of the parsed output is the importSecureNote record. -/
theorem mem_notes_eq_importSecureNote {db : Database} {c : Card} {pf : List String}
    {df : String} {n : Note} (hn : n ∈ (parseCard db c pf df).2) :
    n = importSecureNote db c pf df := by
  rcases parseCard_cases db c pf df with ⟨he, hp⟩ | ⟨he, hp⟩
  · rw [hp] at hn
    simpa using hn
  · rw [hp] at hn
    simp at hn

/-- C4 counterexample: on a website value containing the scheme string
twice, the code removes every occurrence, while a first-match-only
replacement would keep the second; the emitted Site name differs from the
first-match-only result. -/
theorem title_fallback_not_first_match_only :
    ((parseCard cxdb c4card [] "Imported").1).map Site.name = ["a"] ∧
    firstMatchStrip "http://http://a" = "http://a" ∧
    ("a" : String) ≠ "http://a" := by decide

/-- C4 amended: for a card with empty title, every emitted Site is named
by the scanned website value with every occurrence of the two scheme
strings removed (replace-all, case-sensitive), and that name is
non-empty (a triplet whose stripped name is empty is skipped). -/
theorem empty_title_site_name_strips_all_schemes (db : Database) (c : Card)
    (pf : List String) (df : String) (hc : c.title = "") :
    ∀ s ∈ (parseCard db c pf df).1, s.name = stripScheme s.url ∧ s.name ≠ "" := by
  intro s hs
  obtain ⟨login, pass, url, h1, h2, h3, h4, rfl⟩ :=
    mem_parseLoop (mem_sites_mem_parseLoop hs)
  refine ⟨?_, ?_⟩
  · show siteTitle c.title url = stripScheme url
    simp [siteTitle, hc]
  · show siteTitle c.title url ≠ ""
    exact h4

/-- Closed instantiation of the amended title fallback: the single Site of
a concrete empty-title card is named by its stripped website value. -/
theorem empty_title_site_name_strips_all_schemes_witness :
    w4site.name = stripScheme w4site.url ∧ w4site.name ≠ "" :=
  empty_title_site_name_strips_all_schemes cxdb w4c [] "Imported" rfl w4site (by decide)

/-- C5: on a card title containing a space, the written attachment
filename carries a plus sign where the constructed name had the space,
while the escaping the spec describes (percent-escape but preserve
spaces) leaves the name unchanged; the two differ. -/
theorem attachment_space_becomes_plus :
    writtenAttachmentNames c5card "My Card" = [strBytes "My+Card_0_a.txt"] ∧
    specFilenameEscape (strBytes "My Card_0_a.txt") = strBytes "My Card_0_a.txt" ∧
    strBytes "My+Card_0_a.txt" ≠ strBytes "My Card_0_a.txt" := by decide

/-- C6: the extra block of an emitted Site consists, in field order, of
one entry per field whose value differs from the extracted url, login and
password, followed by the card notes and the labels tail; every surviving
field value differs from all three extracted values. -/
theorem site_extra_excludes_extracted_values (db : Database) (c : Card)
    (pf : List String) (df title login pass url : String) :
    (importSite db c pf df title login pass url).extra =
      ((c.fields.filter fun f =>
          !(f.value == url || f.value == login || f.value == pass)).map
        (fun f => f.name ++ ": " ++ f.value ++ "\n\n")).foldr (· ++ ·) ""
      ++ c.notes ++ labelsSuffix db c ∧
    ∀ f ∈ c.fields.filter fun f =>
        !(f.value == url || f.value == login || f.value == pass),
      f.value ≠ url ∧ f.value ≠ login ∧ f.value ≠ pass := by
  constructor
  · show siteExtraFields url login pass c.fields ++ c.notes ++ labelsSuffix db c = _
    rw [siteExtraFields_eq_filter]
  · intro f hf
    rw [List.mem_filter] at hf
    have h2 := hf.2
    simp only [Bool.not_eq_eq_eq_not, Bool.not_true, Bool.or_eq_false_iff,
      beq_eq_false_iff_ne] at h2
    exact ⟨h2.1.1, h2.1.2, h2.2⟩

/-- Closed instantiation of the extra-block exclusion: a free-text field
duplicating the login value is left out of the extra block. -/
theorem site_extra_excludes_extracted_values_witness :
    (importSite cxdb w6c [] "Imported" "T" "bob" "pw" "u").extra = "Info: z\n\n" :=
  ((site_extra_excludes_extracted_values cxdb w6c [] "Imported" "T" "bob" "pw" "u").1).trans
    (by decide)

/-- C7: a card labelled Credit Cards, with the priority list naming
Banking then Credit Cards and no qualifying login triplet, emits exactly
one Secure Note grouped under Credit Cards whose extra block starts with
the Credit Card NoteType line and a blank line. -/
theorem credit_cards_note_scenario :
    (parseCard c7db c7card ["Banking", "Credit Cards"] "Imported").1 = [] ∧
    ((parseCard c7db c7card ["Banking", "Credit Cards"] "Imported").2).map Note.grouping =
      ["Credit Cards"] ∧
    ∀ n ∈ (parseCard c7db c7card ["Banking", "Credit Cards"] "Imported").2,
      ("NoteType:Credit Card\n\n").data.isPrefixOf n.extra.data = true := by decide

/-- C8: every emitted Site has non-empty url, username, password and
name. -/
theorem emitted_sites_have_nonempty_required_fields (db : Database) (c : Card)
    (pf : List String) (df : String) :
    ∀ s ∈ (parseCard db c pf df).1,
      s.url ≠ "" ∧ s.username ≠ "" ∧ s.password ≠ "" ∧ s.name ≠ "" := by
  intro s hs
  obtain ⟨login, pass, url, h1, h2, h3, h4, rfl⟩ :=
    mem_parseLoop (mem_sites_mem_parseLoop hs)
  exact ⟨h3, h1, h2, h4⟩

/-- Closed instantiation of the Site invariant on a concrete card. -/
theorem emitted_sites_have_nonempty_required_fields_witness :
    w8site.url ≠ "" ∧ w8site.username ≠ "" ∧ w8site.password ≠ "" ∧ w8site.name ≠ "" :=
  emitted_sites_have_nonempty_required_fields cxdb w8c [] "Imported" w8site (by decide)

/-- C9: a Secure Note emitted for a card with empty title is named by the
SecureNote word, a space and the card identifier; every emitted Secure
Note has a non-empty name. -/
theorem secure_note_name_fallback (db : Database) (c : Card) (pf : List String)
    (df : String) :
    ∀ n ∈ (parseCard db c pf df).2,
      (c.title = "" → n.name = "SecureNote " ++ c.id) ∧ n.name ≠ "" := by
  intro n hn
  have hn' := mem_notes_eq_importSecureNote hn
  subst hn'
  constructor
  · intro ht
    show (if c.title == "" then "SecureNote " ++ c.id else c.title) = "SecureNote " ++ c.id
    simp [ht]
  · show (if c.title == "" then "SecureNote " ++ c.id else c.title) ≠ ""
    by_cases ht : c.title = ""
    · rw [if_pos (by simp [ht])]
      intro h0
      have hlen : ("SecureNote " ++ c.id).length = 0 := by rw [h0]; rfl
      rw [String.length_append] at hlen
      have h11 : ("SecureNote " : String).length = 11 := rfl
      omega
    · rw [if_neg (by simp [ht])]
      exact ht

/-- Closed instantiation of the note name fallback on a concrete card
with empty title. -/
theorem secure_note_name_fallback_witness : w9note.name = "SecureNote 9" :=
  (secure_note_name_fallback cxdb w9c [] "Imported" w9note (by decide)).1 rfl

/-- C10 counterexample: the grouping switch does not recognize ten folder
names; no list of ten distinct strings all yields a NoteType line. -/
theorem noteType_recognized_names_not_ten :
    ¬ ∃ L : List String, L.Nodup ∧ L.length = 10 ∧ ∀ s ∈ L, noteTypeFor s ≠ "" := by
  rintro ⟨L, hnd, hlen, hall⟩
  have hsub : L ⊆ nineNames := fun s hs => (noteTypeFor_ne_iff s).1 (hall s hs)
  have hle := (hnd.subperm hsub).length_le
  rw [hlen] at hle
  have h9 : nineNames.length = 9 := rfl
  omega

/-- C10 amended: the NoteType lookup recognizes exactly nine fixed folder
names by case-sensitive equality; a composite folder string never
matches; a grouping differing from a recognized name only in letter case
yields no NoteType line; and when the lookup yields nothing the Secure
Note extra block carries no NoteType line at all. -/
theorem noteType_exact_match_only (db : Database) (c : Card) (pf : List String)
    (df : String) :
    (∀ g : String, noteTypeFor g ≠ "" ↔ g ∈ nineNames) ∧
    (∀ d l : String, noteTypeFor (d ++ " - " ++ l) = "") ∧
    (∀ g n : String, n ∈ nineNames → stringEqualFold g n = true → g ≠ n →
      noteTypeFor g = "") ∧
    (noteTypeFor (primaryCardLabel db c pf df) = "" →
      (importSecureNote db c pf df).extra =
        noteFieldDump c.fields ++ c.notes ++ labelsSuffix db c) := by
  refine ⟨noteTypeFor_ne_iff, ?_, ?_, ?_⟩
  · intro d l
    by_contra h
    have hm := (noteTypeFor_ne_iff _).1 h
    have hmid : '-' ∈ (" - " : String).data := by decide
    have hdata : (d ++ " - " ++ l).data = d.data ++ (" - ").data ++ l.data := by
      simp [String.data_append]
    have hdash : '-' ∈ (d ++ " - " ++ l).data := by
      rw [hdata]
      simp only [List.mem_append]
      exact Or.inl (Or.inr hmid)
    have hnone : ∀ m ∈ nineNames, '-' ∉ m.data := by decide
    exact hnone _ hm hdash
  · intro g n hn hfold hne
    by_contra hg
    have hgm := (noteTypeFor_ne_iff g).1 hg
    have hkey : ∀ a ∈ nineNames, ∀ b ∈ nineNames, stringEqualFold a b = true → a = b := by
      decide
    exact hne (hkey g hgm n hn hfold)
  · intro h
    simp only [importSecureNote]
    rw [h]
    simp [String.empty_append]

/-- Closed instantiation of the case-sensitivity of the NoteType lookup:
a grouping resolved through a lower-case priority entry gets no NoteType
line even though it matches a recognized name up to case. -/
theorem noteType_exact_match_only_witness :
    (importSecureNote c7db w10c ["credit cards"] "Imported").extra =
      noteFieldDump w10c.fields ++ w10c.notes ++ labelsSuffix c7db w10c :=
  (noteType_exact_match_only c7db w10c ["credit cards"] "Imported").2.2.2 (by decide)

end Sic2lp
